import Mathlib

set_option maxHeartbeats 1000000

namespace LifeThreads

/-- DiaryEntry models the TypeScript interface in src/types.ts: id, content,
date (ISO string), images (base64 strings), and the optional fields mood,
tags, aiReflection, aiImage.  Optional TS fields become Option. -/
structure DiaryEntry where
  id : String
  content : String
  date : String
  images : List String
  mood : Option String
  tags : Option (List String)
  aiReflection : Option String
  aiImage : Option String
deriving Repr, DecidableEq

/-- PartialDiaryEntry models TypeScript Partial of DiaryEntry: every key may
be absent.  The outer Option marks whether the key is supplied; for the four
already-optional fields the inner Option is the field value itself, so a
supplied-but-undefined key is representable, matching JS spread semantics. -/
structure PartialDiaryEntry where
  id : Option String
  content : Option String
  date : Option String
  images : Option (List String)
  mood : Option (Option String)
  tags : Option (Option (List String))
  aiReflection : Option (Option String)
  aiImage : Option (Option String)
deriving Repr, DecidableEq

/-- jsOrStr models the JavaScript expression o or-else d for strings: both an
absent value and the empty string are falsy and select the default. -/
def jsOrStr (o : Option String) (d : String) : String :=
  match o with
  | none => d
  | some s => if s = "" then d else s

/-- createEntry is the object literal built in the create branch of
handleSaveEntry (App.tsx): id from crypto.randomUUID (passed in as freshId),
content from data.content or-else the empty string, date from data.date
or-else the current time (passed in as now), images from data.images or-else
the empty list (arrays are always truthy, so only an absent key defaults),
and aiReflection / aiImage copied through.  The literal carries no mood or
tags keys. -/
def createEntry (freshId now : String) (data : PartialDiaryEntry) : DiaryEntry :=
  { id := freshId
    content := jsOrStr data.content ""
    date := jsOrStr data.date now
    images := data.images.getD []
    mood := none
    tags := none
    aiReflection := data.aiReflection.join
    aiImage := data.aiImage.join }

/-- mergeEntry models the JS spread of data onto e: every key supplied in
data overrides the corresponding field of e, every absent key keeps the
prior value. -/
def mergeEntry (e : DiaryEntry) (data : PartialDiaryEntry) : DiaryEntry :=
  { id := data.id.getD e.id
    content := data.content.getD e.content
    date := data.date.getD e.date
    images := data.images.getD e.images
    mood := data.mood.getD e.mood
    tags := data.tags.getD e.tags
    aiReflection := data.aiReflection.getD e.aiReflection
    aiImage := data.aiImage.getD e.aiImage }

/-- handleSaveEntry from App.tsx: when data.id is truthy (present and not
the empty string) every entry whose id equals it is merged with data via the
spread; otherwise a fresh entry is built and prepended.  freshId stands for
the value returned by crypto.randomUUID and now for the current ISO time. -/
def handleSaveEntry (freshId now : String) (data : PartialDiaryEntry)
    (prev : List DiaryEntry) : List DiaryEntry :=
  match data.id with
  | some i =>
      if i = "" then createEntry freshId now data :: prev
      else prev.map (fun e => if e.id = i then mergeEntry e data else e)
  | none => createEntry freshId now data :: prev

/-- handleDeleteEntry from App.tsx, the confirmed path: keep exactly the
entries whose id differs from the deleted one. -/
def handleDeleteEntry (i : String) (prev : List DiaryEntry) : List DiaryEntry :=
  prev.filter (fun e => decide (e.id ≠ i))

/-- listIsPre sub l is true when sub is an initial segment of l. -/
def listIsPre : List Char → List Char → Bool
  | [], _ => true
  | _ :: _, [] => false
  | a :: s, b :: t => a == b && listIsPre s t

/-- listContainsSub sub l models JavaScript String.prototype.includes on the
underlying character lists: some suffix of l starts with sub. -/
def listContainsSub (sub : List Char) : List Char → Bool
  | [] => sub.isEmpty
  | c :: t => listIsPre sub (c :: t) || listContainsSub sub t

/-- strIncludes models s.includes(sub) from JavaScript. -/
def strIncludes (s sub : String) : Bool :=
  listContainsSub sub.data s.data

/-- jsToLower models String.prototype.toLowerCase restricted to ASCII, which
covers every string the repository compares. -/
def jsToLower (s : String) : String :=
  String.mk (s.data.map Char.toLower)

/-- matchesQuery is the filter predicate of filteredEntries in App.tsx:
content contains the query case-insensitively, or the raw date string
contains the query literally. -/
def matchesQuery (q : String) (e : DiaryEntry) : Bool :=
  strIncludes (jsToLower e.content) (jsToLower q) || strIncludes e.date q

/-- readFixedNat reads exactly width decimal digits into acc. -/
def readFixedNat (width : Nat) (acc : Nat) (l : List Char) :
    Option (Nat × List Char) :=
  match width with
  | 0 => some (acc, l)
  | w + 1 =>
      match l with
      | [] => none
      | c :: t =>
          if c.isDigit then readFixedNat w (acc * 10 + (c.toNat - 48)) t
          else none

/-- expectChar consumes one given character. -/
def expectChar (c : Char) (l : List Char) : Option (List Char) :=
  match l with
  | [] => none
  | a :: t => if a = c then some t else none

def isLeap (y : Nat) : Bool :=
  (y % 4 == 0 && y % 100 != 0) || y % 400 == 0

def daysInMonth (y m : Nat) : Nat :=
  if m = 2 then (if isLeap y then 29 else 28)
  else if m = 4 ∨ m = 6 ∨ m = 9 ∨ m = 11 then 30
  else 31

/-- daysFromCivil counts days from the Unix epoch to the given Gregorian
civil date, the standard era-based computation. -/
def daysFromCivil (year month day : Nat) : Int :=
  let y : Int := if month ≤ 2 then (year : Int) - 1 else (year : Int)
  let era : Int := Int.fdiv y 400
  let yoe : Int := y - era * 400
  let mp : Int := ((month : Int) + 9) % 12
  let doy : Int := Int.fdiv (153 * mp + 2) 5 + (day : Int) - 1
  let doe : Int := yoe * 365 + Int.fdiv yoe 4 - Int.fdiv yoe 100 + doy
  era * 146097 + doe - 719468

/-- parseDateMs models new Date(s).getTime() for strings in the ECMAScript
date-time string format (YYYY-MM-DD with an optional THH:MM, seconds,
milliseconds and Z suffix), returning milliseconds since the epoch, and none
(the NaN outcome) for anything else.  Offsets other than Z and the host
local-time zone are outside the model; every date the repository stores is
produced by toISOString and parses here. -/
def parseDateMs (s : String) : Option Int := do
  let l := s.data
  let (y, l) ← readFixedNat 4 0 l
  let l ← expectChar '-' l
  let (mo, l) ← readFixedNat 2 0 l
  let l ← expectChar '-' l
  let (d, l) ← readFixedNat 2 0 l
  if mo < 1 ∨ 12 < mo then none
  else if d < 1 ∨ daysInMonth y mo < d then none
  else
    let dayMs : Int := daysFromCivil y mo d * 86400000
    match l with
    | [] => some dayMs
    | 'T' :: rest => do
        let (hh, l) ← readFixedNat 2 0 rest
        let l ← expectChar ':' l
        let (mi, l) ← readFixedNat 2 0 l
        if 23 < hh ∨ 59 < mi then none
        else do
          let (ss, ms, l) ← (do
            match l with
            | ':' :: r => do
                let (ss, l) ← readFixedNat 2 0 r
                if 59 < ss then none
                else
                  match l with
                  | '.' :: r2 => do
                      let (ms, l) ← readFixedNat 3 0 r2
                      pure (ss, ms, l)
                  | _ => pure (ss, 0, l)
            | _ => pure (0, 0, l))
          match l with
          | [] => some (dayMs + ((hh * 3600000 + mi * 60000 + ss * 1000 + ms : Nat) : Int))
          | ['Z'] => some (dayMs + ((hh * 3600000 + mi * 60000 + ss * 1000 + ms : Nat) : Int))
          | _ => none
    | _ => none

/-- dateLe a b models the outcome of the sort comparator
(a, b) => parse(b.date) - parse(a.date) being at most zero: a may be placed
before b.  When either date fails to parse the comparator value is NaN,
which Array.prototype.sort treats the same as zero, so both orders are
allowed; that case is modelled as true. -/
def dateLe (a b : DiaryEntry) : Bool :=
  match parseDateMs a.date, parseDateMs b.date with
  | some x, some y => decide (y ≤ x)
  | _, _ => true

/-- orderedInsertEntry inserts into a list sorted by dateLe, keeping the new
element in front of later ties, which matches the stability guarantee of
Array.prototype.sort. -/
def orderedInsertEntry (a : DiaryEntry) : List DiaryEntry → List DiaryEntry
  | [] => [a]
  | b :: t => if dateLe a b then a :: b :: t else b :: orderedInsertEntry a t

/-- sortEntries is a stable sort by dateLe, the model of
filtered.sort((a, b) => new Date(b.date).getTime() - new Date(a.date).getTime()). -/
def sortEntries : List DiaryEntry → List DiaryEntry
  | [] => []
  | a :: t => orderedInsertEntry a (sortEntries t)

/-- filteredEntries from App.tsx: filter by matchesQuery, then sort
descending by parsed date. -/
def filteredEntries (entries : List DiaryEntry) (q : String) : List DiaryEntry :=
  sortEntries (entries.filter (matchesQuery q))

/-- eAlpha is the first concrete entry of the search-filter test case. -/
def eAlpha : DiaryEntry :=
  ⟨"e1", "alpha trip", "2024-01-01", [], none, none, none, none⟩

/-- eBeta is the second concrete entry of the search-filter test case. -/
def eBeta : DiaryEntry :=
  ⟨"e2", "beta day", "2024-02-01", [], none, none, none, none⟩

/-- eU is a stored entry used to exercise the update path. -/
def eU : DiaryEntry :=
  ⟨"a", "old words", "2024-03-03", ["img0"], none, none, some "r", none⟩

/-- dU is a partial update supplying only id and content. -/
def dU : PartialDiaryEntry :=
  ⟨some "a", some "new words", none, none, none, none, none, none⟩

/-- scaleDims is the dimension computation of optimizeImage in
EntryModal.tsx, with cap standing for MAX_WIDTH = MAX_HEIGHT (1000 in one
revision, 1200 in the other).  The JavaScript float arithmetic is modelled
by exact rational arithmetic: first branch when width exceeds height,
height is multiplied by cap divided by width before width is capped, and
symmetrically in the other branch. -/
def scaleDims (cap w h : ℚ) : ℚ × ℚ :=
  if h < w then
    (if cap < w then (cap, h * (cap / w)) else (w, h))
  else
    (if cap < h then (w * (cap / h), cap) else (w, h))

/-- ImgFile abstracts a browser File as the upload pipeline sees it: the
reported MIME type, the decoded content (opaque), and whether the
FileReader plus Image decode succeeds. -/
structure ImgFile where
  ftype : String
  content : String
  decodable : Bool
deriving Repr, DecidableEq

/-- encodeImage models the deterministic canvas.toDataURL re-encoding of a
successfully decoded file; its internals are opaque to every claim. -/
def encodeImage (f : ImgFile) : String :=
  "data:image/jpeg;base64," ++ f.content

/-- optimizeImageResult is the settled promise of optimizeImage: rejection
when decoding fails, otherwise the encoded payload. -/
def optimizeImageResult (f : ImgFile) : Except String String :=
  if f.decodable then .ok (encodeImage f) else .error "decode failure"

/-- isImageFile is the batch filter file.type.startsWith(image slash). -/
def isImageFile (f : ImgFile) : Bool :=
  listIsPre "image/".data f.ftype.data

/-- optimizeAll models Promise.all over the per-file optimize promises: the
payloads in input order when every promise fulfils, the first rejection
otherwise. -/
def optimizeAll : List ImgFile → Except String (List String)
  | [] => .ok []
  | f :: t =>
      match optimizeImageResult f, optimizeAll t with
      | .ok s, .ok l => .ok (s :: l)
      | .error e, _ => .error e
      | _, .error e => .error e

/-- processFiles from EntryModal.tsx: non-image files are filtered out
before processing, the remaining files are optimized together, and on
success the payloads are appended to the current image list; on any
rejection the catch leaves the images untouched and raises the single
user-facing alert (the Bool). -/
def processFiles (files : List ImgFile) (images : List String) :
    List String × Bool :=
  match optimizeAll (files.filter isImageFile) with
  | .ok l => (images ++ l, false)
  | .error _ => (images, true)

/-- GenTextResponse models the generateContent response the text operations
consume: the text field may be absent (and the empty string is falsy where
the code applies the or-else default). -/
structure GenTextResponse where
  text : Option String

/-- GenPart is one part of the multi-part image response envelope. -/
structure GenPart where
  inlineData : Option (String × String)

/-- GenImageResponse holds the parts of the first candidate; the
optional-chaining chain in the source collapses an absent candidate,
content or parts to the empty list. -/
structure GenImageResponse where
  parts : List GenPart

/-- GenService abstracts the external generative API transport: each call
either fails (transport, authorization, malformed response) or yields an
envelope, keyed by the full prompt the repository builds. -/
structure GenService where
  textCall : String → Except String GenTextResponse
  imageCall : String → Except String GenImageResponse

/-- reflectPrompt is the prompt string built by generateEntryReflection. -/
def reflectPrompt (content date : String) : String :=
  "You are a thoughtful diary assistant. Here is a journal entry from " ++
    date ++ ": \"" ++ content ++
    "\". Please provide a short (2-3 sentences) poetic or insightful reflection on this moment. Be warm and supportive."

/-- visualPromptRequest is the first prompt of generateReflectionImage. -/
def visualPromptRequest (content : String) : String :=
  "Create a short, artistic image generation prompt (max 30 words) that captures the mood and essence of this diary entry: \"" ++
    content ++ "\". Focus on abstract, dreamy, and nostalgic styles."

/-- imagePrompt is the second prompt of generateReflectionImage. -/
def imagePrompt (visualPrompt : String) : String :=
  "An artistic, dreamy, nostalgic illustration representing: " ++
    visualPrompt ++
    ". High quality, soft lighting, evocative colors, watercolor and digital oil paint style. No text, no faces."

/-- summaryPrompt is the prompt of generateYearSummary. -/
def summaryPrompt (entries : List String) : String :=
  "Summarize the following collection of diary entries into a cohesive story of a journey. Focus on themes, growth, and emotions: \n\n " ++
    String.intercalate "\n\n" entries

/-- getAIv2 models the getAI helper of the geminiService revision that
returns null when the key is absent, the empty string, or the literal
string undefined. -/
def getAIv2 (apiKey : Option String) : Option Unit :=
  match apiKey with
  | none => none
  | some k => if k = "" ∨ k = "undefined" then none else some ()

/-- getAIv3 models the getAI helper of src/unnamed/part_002, which throws
when the key is falsy or the literal string undefined; the per-operation
try/catch turns the throw into the fallback. -/
def getAIv3 (apiKey : Option String) : Except String Unit :=
  match apiKey with
  | none => .error "API_KEY is not configured. Please set your environment variables."
  | some k =>
      if k = "" ∨ k = "undefined" then
        .error "API_KEY is not configured. Please set your environment variables."
      else .ok ()

/-- findInline scans the response parts for the first inlineData and builds
the data URL exactly as the source does. -/
def findInline : List GenPart → Option String
  | [] => none
  | p :: t =>
      match p.inlineData with
      | some (mime, dat) => some ("data:" ++ mime ++ ";base64," ++ dat)
      | none => findInline t

/-- generateEntryReflectionV2 is the null-returning-getAI revision of
generateEntryReflection; the second component counts generateContent calls
attempted. -/
def generateEntryReflectionV2 (apiKey : Option String) (svc : GenService)
    (content date : String) : String × Nat :=
  match getAIv2 apiKey with
  | none => ("Your memory is safely stored. AI reflection is currently unavailable.", 0)
  | some _ =>
      match svc.textCall (reflectPrompt content date) with
      | .error _ => ("A moment to remember.", 1)
      | .ok r => (jsOrStr r.text "A beautiful memory preserved.", 1)

/-- generateReflectionImageV2 is the null-returning-getAI revision of
generateReflectionImage, counting calls. -/
def generateReflectionImageV2 (apiKey : Option String) (svc : GenService)
    (content : String) : Option String × Nat :=
  match getAIv2 apiKey with
  | none => (none, 0)
  | some _ =>
      match svc.textCall (visualPromptRequest content) with
      | .error _ => (none, 1)
      | .ok pr =>
          match svc.imageCall (imagePrompt (jsOrStr pr.text content)) with
          | .error _ => (none, 2)
          | .ok resp => (findInline resp.parts, 2)

/-- generateYearSummaryV2 is the null-returning-getAI revision of
generateYearSummary, counting calls. -/
def generateYearSummaryV2 (apiKey : Option String) (svc : GenService)
    (entries : List String) : String × Nat :=
  match getAIv2 apiKey with
  | none => ("Your journey is a collection of beautiful threads.", 0)
  | some _ =>
      match svc.textCall (summaryPrompt entries) with
      | .error _ => ("Your diary is full of meaningful moments.", 1)
      | .ok r => (jsOrStr r.text "Your journey is a collection of beautiful threads.", 1)

/-- generateEntryReflectionV3 is the throwing-getAI revision
(src/unnamed/part_002) of generateEntryReflection. -/
def generateEntryReflectionV3 (apiKey : Option String) (svc : GenService)
    (content date : String) : String × Nat :=
  match getAIv3 apiKey with
  | .error _ => ("The AI is currently quiet, but your memory is safely stored.", 0)
  | .ok _ =>
      match svc.textCall (reflectPrompt content date) with
      | .error _ => ("The AI is currently quiet, but your memory is safely stored.", 1)
      | .ok r => (jsOrStr r.text "A beautiful memory preserved.", 1)

/-- generateReflectionImageV3 is the throwing-getAI revision of
generateReflectionImage. -/
def generateReflectionImageV3 (apiKey : Option String) (svc : GenService)
    (content : String) : Option String × Nat :=
  match getAIv3 apiKey with
  | .error _ => (none, 0)
  | .ok _ =>
      match svc.textCall (visualPromptRequest content) with
      | .error _ => (none, 1)
      | .ok pr =>
          match svc.imageCall (imagePrompt (jsOrStr pr.text content)) with
          | .error _ => (none, 2)
          | .ok resp => (findInline resp.parts, 2)

/-- generateYearSummaryV3 is the throwing-getAI revision of
generateYearSummary. -/
def generateYearSummaryV3 (apiKey : Option String) (svc : GenService)
    (entries : List String) : String × Nat :=
  match getAIv3 apiKey with
  | .error _ => ("Could not generate summary at this time.", 0)
  | .ok _ =>
      match svc.textCall (summaryPrompt entries) with
      | .error _ => ("Could not generate summary at this time.", 1)
      | .ok r => (jsOrStr r.text "Your journey is a collection of beautiful threads.", 1)

/-- svcW is a concrete failing transport used by witnesses. -/
def svcW : GenService :=
  ⟨fun _ => .error "network down", fun _ => .error "network down"⟩

/-- AppState is the slice of App component state handleReflect touches. -/
structure AppState where
  entries : List DiaryEntry
  isReflectingId : Option String
deriving Repr, DecidableEq

/-- jsTruthyStr models JavaScript truthiness of a string-or-null value:
null and the empty string are falsy. -/
def jsTruthyStr (o : Option String) : Bool :=
  match o with
  | none => false
  | some s => s != ""

/-- handleReflectStart is the synchronous head of handleReflect in App.tsx,
up to the point where the Promise.all pair is issued: look up the entry,
return unchanged when it is absent or when the in-flight id is truthy,
otherwise record the in-flight id and issue one request pair (the Nat
counts pairs issued by this invocation). -/
def handleReflectStart (s : AppState) (id : String) : AppState × Nat :=
  match s.entries.find? (fun e => e.id == id) with
  | none => (s, 0)
  | some _ =>
      if jsTruthyStr s.isReflectingId then (s, 0)
      else ({ s with isReflectingId := some id }, 1)

/-- emptyIdEntry is an entry whose id is the empty string; such entries can
only enter the collection through the unvalidated storage load. -/
def emptyIdEntry : DiaryEntry :=
  ⟨"", "loaded from storage", "2024-01-01", [], none, none, none, none⟩

/-- inflightState has an enrichment for eAlpha in flight. -/
def inflightState : AppState :=
  ⟨[eAlpha, eBeta], some "e1"⟩

/-- jsonEscapeChar models the escaping JSON.stringify applies inside string
values for the characters that can occur in this application's data. -/
def jsonEscapeChar (c : Char) : List Char :=
  if c = '"' then ['\\', '"']
  else if c = '\\' then ['\\', '\\']
  else if c = '\n' then ['\\', 'n']
  else if c = '\t' then ['\\', 't']
  else if c = '\r' then ['\\', 'r']
  else [c]

/-- jsonQuote wraps a string value in quotes with its characters escaped. -/
def jsonQuote (s : String) : String :=
  String.mk ('"' :: (s.data.map jsonEscapeChar).flatten ++ ['"'])

def joinWithComma : List String → String
  | [] => ""
  | [s] => s
  | s :: t => s ++ "," ++ joinWithComma t

def jsonStrArray (l : List String) : String :=
  "[" ++ joinWithComma (l.map jsonQuote) ++ "]"

def jsonOptField (name : String) (v : Option String) : List String :=
  match v with
  | none => []
  | some s => [jsonQuote name ++ ":" ++ jsonQuote s]

/-- stringifyEntry models JSON.stringify on one entry object: keys in the
declaration order of the interface, properties holding undefined omitted,
as JSON.stringify does. -/
def stringifyEntry (e : DiaryEntry) : String :=
  "\x7b" ++ joinWithComma
    ([jsonQuote "id" ++ ":" ++ jsonQuote e.id,
      jsonQuote "content" ++ ":" ++ jsonQuote e.content,
      jsonQuote "date" ++ ":" ++ jsonQuote e.date,
      jsonQuote "images" ++ ":" ++ jsonStrArray e.images]
     ++ jsonOptField "mood" e.mood
     ++ (match e.tags with
         | none => []
         | some ts => [jsonQuote "tags" ++ ":" ++ jsonStrArray ts])
     ++ jsonOptField "aiReflection" e.aiReflection
     ++ jsonOptField "aiImage" e.aiImage) ++ "\x7d"

/-- stringifyEntries models JSON.stringify(entries): the serialized array
that the persistence effect writes to the slot. -/
def stringifyEntries (l : List DiaryEntry) : String :=
  "[" ++ joinWithComma (l.map stringifyEntry) ++ "]"

/-- persistEffectV1 models the first-revision persistence effect of
App.tsx: it returns early, performing no write at all, when the collection
is empty; otherwise it writes the serialized array when the storage accepts
it (canWrite models the quota), keeping the old slot and raising the
warning flag when setItem throws. -/
def persistEffectV1 (canWrite : String → Bool) (entries : List DiaryEntry)
    (slot : Option String) : Option String × Bool :=
  if entries.length = 0 then (slot, false)
  else
    let s := stringifyEntries entries
    if canWrite s then (some s, false) else (slot, true)

/-- persistEffectV2 models the second-revision persistence effect, which
always writes, the empty collection included. -/
def persistEffectV2 (canWrite : String → Bool) (entries : List DiaryEntry)
    (slot : Option String) : Option String × Bool :=
  let s := stringifyEntries entries
  if canWrite s then (some s, false) else (slot, true)

/-- Json is the value universe of the JSON.parse model; numeric literals
keep their raw text since no claim depends on float values. -/
inductive Json where
  | null : Json
  | bool : Bool → Json
  | num : String → Json
  | str : String → Json
  | arr : List Json → Json
  | obj : List (String × Json) → Json

def skipWs : List Char → List Char
  | [] => []
  | c :: t => if c = ' ' ∨ c = '\n' ∨ c = '\t' ∨ c = '\r' then skipWs t else c :: t

def hexVal (c : Char) : Option Nat :=
  if '0' ≤ c ∧ c ≤ '9' then some (c.toNat - 48)
  else if 'a' ≤ c ∧ c ≤ 'f' then some (c.toNat - 87)
  else if 'A' ≤ c ∧ c ≤ 'F' then some (c.toNat - 55)
  else none

def escapeOf (e : Char) : Option Char :=
  if e = '"' then some '"'
  else if e = '\\' then some '\\'
  else if e = '/' then some '/'
  else if e = 'n' then some '\n'
  else if e = 't' then some '\t'
  else if e = 'r' then some '\r'
  else if e = 'b' then some '\x08'
  else if e = 'f' then some '\x0c'
  else none

/-- parseStringRest reads a JSON string body after the opening quote,
returning the decoded characters and the remainder after the closing
quote. -/
def parseStringRest : List Char → Option (List Char × List Char)
  | [] => none
  | '"' :: t => some ([], t)
  | '\\' :: r =>
      match r with
      | 'u' :: h1 :: h2 :: h3 :: h4 :: t =>
          match hexVal h1, hexVal h2, hexVal h3, hexVal h4 with
          | some a, some b, some c, some d =>
              (fun p => (Char.ofNat (((a * 16 + b) * 16 + c) * 16 + d) :: p.1, p.2)) <$>
                parseStringRest t
          | _, _, _, _ => none
      | e :: t =>
          match escapeOf e with
          | some c => (fun p => (c :: p.1, p.2)) <$> parseStringRest t
          | none => none
      | [] => none
  | c :: t => (fun p => (c :: p.1, p.2)) <$> parseStringRest t

def spanDigits : List Char → List Char × List Char
  | [] => ([], [])
  | c :: t =>
      if c.isDigit then
        let p := spanDigits t
        (c :: p.1, p.2)
      else ([], c :: t)

def badLeadZero : List Char → Bool
  | '0' :: _ :: _ => true
  | _ => false

def parseNumExpSign (e : Char) (t : List Char) :
    Option (List Char × List Char) :=
  match t with
  | '+' :: r =>
      (match spanDigits r with
       | ([], _) => none
       | (ds, rest) => some (e :: '+' :: ds, rest))
  | '-' :: r =>
      (match spanDigits r with
       | ([], _) => none
       | (ds, rest) => some (e :: '-' :: ds, rest))
  | r =>
      (match spanDigits r with
       | ([], _) => none
       | (ds, rest) => some (e :: ds, rest))

def parseNumExp (l : List Char) : Option (List Char × List Char) :=
  match l with
  | 'e' :: t => parseNumExpSign 'e' t
  | 'E' :: t => parseNumExpSign 'E' t
  | _ => some ([], l)

def parseNumFrac (l : List Char) : Option (List Char × List Char) :=
  match l with
  | '.' :: t =>
      match spanDigits t with
      | ([], _) => none
      | (fs, rest) => some ('.' :: fs, rest)
  | _ => some ([], l)

/-- parseNumber reads a JSON numeric literal, keeping its raw text. -/
def parseNumber (l : List Char) : Option (List Char × List Char) :=
  let p : List Char × List Char :=
    match l with
    | '-' :: t => (['-'], t)
    | _ => ([], l)
  match spanDigits p.2 with
  | ([], _) => none
  | (ds, l2) =>
      if badLeadZero ds then none
      else do
        let (fr, l3) ← parseNumFrac l2
        let (ex, l4) ← parseNumExp l3
        pure (p.1 ++ ds ++ fr ++ ex, l4)

mutual

/-- parseJsonVal is a fuel-driven recursive-descent JSON value parser, the
model of JSON.parse; the fuel is a bound on nesting, always called with
more fuel than the input has characters. -/
def parseJsonVal : Nat → List Char → Option (Json × List Char)
  | 0, _ => none
  | fuel + 1, l =>
      match skipWs l with
      | 'n' :: 'u' :: 'l' :: 'l' :: t => some (.null, t)
      | 't' :: 'r' :: 'u' :: 'e' :: t => some (.bool true, t)
      | 'f' :: 'a' :: 'l' :: 's' :: 'e' :: t => some (.bool false, t)
      | '"' :: t =>
          match parseStringRest t with
          | some (cs, rest) => some (.str (String.mk cs), rest)
          | none => none
      | '[' :: t =>
          (match skipWs t with
           | ']' :: rest => some (.arr [], rest)
           | _ =>
              match parseJsonElems fuel t with
              | some (es, rest) => some (.arr es, rest)
              | none => none)
      | '\x7b' :: t =>
          (match skipWs t with
           | '\x7d' :: rest => some (.obj [], rest)
           | _ =>
              match parseJsonFields fuel t with
              | some (fs, rest) => some (.obj fs, rest)
              | none => none)
      | l2 =>
          match parseNumber l2 with
          | some (raw, rest) => some (.num (String.mk raw), rest)
          | none => none

def parseJsonElems : Nat → List Char → Option (List Json × List Char)
  | 0, _ => none
  | fuel + 1, l =>
      match parseJsonVal fuel l with
      | none => none
      | some (v, rest) =>
          match skipWs rest with
          | ',' :: t =>
              (match parseJsonElems fuel t with
               | some (es, r2) => some (v :: es, r2)
               | none => none)
          | ']' :: t => some ([v], t)
          | _ => none

def parseJsonFields : Nat → List Char → Option (List (String × Json) × List Char)
  | 0, _ => none
  | fuel + 1, l =>
      match skipWs l with
      | '"' :: t =>
          match parseStringRest t with
          | none => none
          | some (key, r1) =>
              match skipWs r1 with
              | ':' :: r2 =>
                  (match parseJsonVal fuel r2 with
                   | none => none
                   | some (v, r3) =>
                      match skipWs r3 with
                      | ',' :: r4 =>
                          (match parseJsonFields fuel r4 with
                           | some (fs, r5) => some ((String.mk key, v) :: fs, r5)
                           | none => none)
                      | '\x7d' :: r4 => some ([(String.mk key, v)], r4)
                      | _ => none)
              | _ => none
      | _ => none

end

/-- jsonParse models JSON.parse: parse one value and require only trailing
whitespace; none models the thrown SyntaxError. -/
def jsonParse (s : String) : Option Json :=
  match parseJsonVal (2 * s.length + 2) s.data with
  | some (v, rest) => if (skipWs rest).isEmpty then some v else none
  | none => none

/-- loadEntriesV1 models the initial-load effect of the first App revision:
a missing or falsy slot leaves the collection empty, a parse failure clears
the slot (removeItem in the catch), a parsed array becomes the collection
as raw JSON values (the code casts without validating the elements), and
any other parsed value is ignored.  The pair is the loaded collection and
the slot after the effect. -/
def loadEntriesV1 (slot : Option String) : List Json × Option String :=
  match slot with
  | none => ([], none)
  | some s =>
      if s = "" then ([], some s)
      else
        match jsonParse s with
        | none => ([], none)
        | some (Json.arr l) => (l, some s)
        | some _ => ([], some s)

/-- loadEntriesV2 models the second revision, whose catch only logs: same
collection outcome, slot never cleared. -/
def loadEntriesV2 (slot : Option String) : List Json :=
  match slot with
  | none => []
  | some s =>
      if s = "" then []
      else
        match jsonParse s with
        | some (Json.arr l) => l
        | _ => []

theorem list_map_id_of {α : Type} (f : α → α) (l : List α)
    (h : ∀ e ∈ l, f e = e) : l.map f = l := by
  induction l with
  | nil => rfl
  | cons a t ih =>
      simp only [List.map_cons]
      rw [h a (List.mem_cons_self a t), ih (fun e he => h e (List.mem_cons_of_mem a he))]

theorem filter_ne_id_eq_self {i : String} {l : List DiaryEntry}
    (h : ∀ e ∈ l, e.id ≠ i) : handleDeleteEntry i l = l := by
  unfold handleDeleteEntry
  apply List.filter_eq_self.mpr
  intro a ha
  simpa using h a ha

/-- C1: creating a new entry (no id supplied, non-empty content) prepends a
fresh entry, growing the collection by one; the new entry carries the fresh
id (assumed distinct from existing ids, an environment guarantee of
crypto.randomUUID expressed as the hfresh hypothesis), its date defaults to
the current time when unspecified, its images default to the empty list, and
all pre-existing entries are unchanged behind it. -/
theorem save_new_entry_spec (freshId now : String) (data : PartialDiaryEntry)
    (prev : List DiaryEntry) (hid : data.id = none)
    (c : String) (hc : data.content = some c) (hne : c ≠ "")
    (hfresh : ∀ e ∈ prev, e.id ≠ freshId) :
    (handleSaveEntry freshId now data prev).length = prev.length + 1 ∧
    handleSaveEntry freshId now data prev = createEntry freshId now data :: prev ∧
    (createEntry freshId now data).id = freshId ∧
    (∀ e ∈ prev, e.id ≠ (createEntry freshId now data).id) ∧
    (data.date = none → (createEntry freshId now data).date = now) ∧
    (data.images = none → (createEntry freshId now data).images = []) ∧
    (createEntry freshId now data).content = c := by
  have hsave : handleSaveEntry freshId now data prev =
      createEntry freshId now data :: prev := by
    unfold handleSaveEntry
    rw [hid]
  refine ⟨by rw [hsave]; simp, hsave, rfl, ?_, ?_, ?_, ?_⟩
  · intro e he
    simpa [createEntry] using hfresh e he
  · intro hdate
    simp [createEntry, hdate, jsOrStr]
  · intro him
    simp [createEntry, him]
  · simp [createEntry, hc, jsOrStr, hne]

theorem save_new_entry_spec_witness :
    (handleSaveEntry "uuid-1" "2024-05-05T00:00:00.000Z"
        ⟨none, some "hello", none, none, none, none, none, none⟩ []).length = 0 + 1 ∧
    handleSaveEntry "uuid-1" "2024-05-05T00:00:00.000Z"
        ⟨none, some "hello", none, none, none, none, none, none⟩ [] =
      createEntry "uuid-1" "2024-05-05T00:00:00.000Z"
        ⟨none, some "hello", none, none, none, none, none, none⟩ :: [] ∧
    (createEntry "uuid-1" "2024-05-05T00:00:00.000Z"
        ⟨none, some "hello", none, none, none, none, none, none⟩).id = "uuid-1" ∧
    (∀ e ∈ ([] : List DiaryEntry), e.id ≠
      (createEntry "uuid-1" "2024-05-05T00:00:00.000Z"
        ⟨none, some "hello", none, none, none, none, none, none⟩).id) ∧
    ((⟨none, some "hello", none, none, none, none, none, none⟩ :
        PartialDiaryEntry).date = none →
      (createEntry "uuid-1" "2024-05-05T00:00:00.000Z"
        ⟨none, some "hello", none, none, none, none, none, none⟩).date =
        "2024-05-05T00:00:00.000Z") ∧
    ((⟨none, some "hello", none, none, none, none, none, none⟩ :
        PartialDiaryEntry).images = none →
      (createEntry "uuid-1" "2024-05-05T00:00:00.000Z"
        ⟨none, some "hello", none, none, none, none, none, none⟩).images = []) ∧
    (createEntry "uuid-1" "2024-05-05T00:00:00.000Z"
        ⟨none, some "hello", none, none, none, none, none, none⟩).content = "hello" :=
  save_new_entry_spec "uuid-1" "2024-05-05T00:00:00.000Z"
    ⟨none, some "hello", none, none, none, none, none, none⟩ []
    rfl "hello" rfl (by decide) (by simp)

/-- C2: deleting by id leaves no entry with that id, keeps every other entry
(with all field values unchanged, since the survivors are a sublist of the
original list) in their original relative order, and, when ids are pairwise
distinct and the id is present, removes exactly one entry. -/
theorem delete_entry_spec (i : String) (prev : List DiaryEntry) :
    (∀ e ∈ handleDeleteEntry i prev, e.id ≠ i) ∧
    (∀ e ∈ prev, e.id ≠ i → e ∈ handleDeleteEntry i prev) ∧
    (handleDeleteEntry i prev).Sublist prev ∧
    (prev.Pairwise (fun a b => a.id ≠ b.id) → ∀ x ∈ prev, x.id = i →
      (handleDeleteEntry i prev).length + 1 = prev.length) := by
  refine ⟨?_, ?_, ?_, ?_⟩
  · intro e he
    have := List.of_mem_filter he
    simpa using this
  · intro e he hne
    exact List.mem_filter.mpr ⟨he, by simpa using hne⟩
  · exact List.filter_sublist prev
  · intro hnodup x hx hxid
    induction prev with
    | nil => simp at hx
    | cons a t ih =>
        have hpa : ∀ b ∈ t, a.id ≠ b.id := (List.pairwise_cons.mp hnodup).1
        have hpt : t.Pairwise (fun a b => a.id ≠ b.id) :=
          (List.pairwise_cons.mp hnodup).2
        rcases List.mem_cons.mp hx with hxa | hxt
        · subst hxa
          have hkeep : handleDeleteEntry i t = t := by
            apply filter_ne_id_eq_self
            intro e he
            have := hpa e he
            rw [hxid] at this
            exact fun hcon => this hcon.symm
          have : handleDeleteEntry i (x :: t) = handleDeleteEntry i t := by
            unfold handleDeleteEntry
            simp [hxid]
          rw [this, hkeep]
          simp
        · have haid : a.id ≠ i := by
            have := hpa x hxt
            rw [hxid] at this
            exact this
          have : handleDeleteEntry i (a :: t) = a :: handleDeleteEntry i t := by
            unfold handleDeleteEntry
            simp [haid]
          rw [this]
          simp only [List.length_cons]
          have := ih hpt hxt
          omega

theorem delete_entry_spec_witness :
    (∀ e ∈ handleDeleteEntry "a"
        [⟨"a", "x", "d", [], none, none, none, none⟩,
         ⟨"b", "y", "d", [], none, none, none, none⟩], e.id ≠ "a") ∧
    (∀ e ∈ [(⟨"a", "x", "d", [], none, none, none, none⟩ : DiaryEntry),
            ⟨"b", "y", "d", [], none, none, none, none⟩],
        e.id ≠ "a" → e ∈ handleDeleteEntry "a"
          [⟨"a", "x", "d", [], none, none, none, none⟩,
           ⟨"b", "y", "d", [], none, none, none, none⟩]) ∧
    (handleDeleteEntry "a"
        [⟨"a", "x", "d", [], none, none, none, none⟩,
         ⟨"b", "y", "d", [], none, none, none, none⟩]).Sublist
      [⟨"a", "x", "d", [], none, none, none, none⟩,
       ⟨"b", "y", "d", [], none, none, none, none⟩] ∧
    ([(⟨"a", "x", "d", [], none, none, none, none⟩ : DiaryEntry),
      ⟨"b", "y", "d", [], none, none, none, none⟩].Pairwise
        (fun a b => a.id ≠ b.id) →
      ∀ x ∈ [(⟨"a", "x", "d", [], none, none, none, none⟩ : DiaryEntry),
             ⟨"b", "y", "d", [], none, none, none, none⟩], x.id = "a" →
        (handleDeleteEntry "a"
          [⟨"a", "x", "d", [], none, none, none, none⟩,
           ⟨"b", "y", "d", [], none, none, none, none⟩]).length + 1 = 2) :=
  delete_entry_spec "a"
    [⟨"a", "x", "d", [], none, none, none, none⟩,
     ⟨"b", "y", "d", [], none, none, none, none⟩]

/-- C3: updating by an existing id merges the supplied fields onto the
matched entry and leaves every other position untouched; each unsupplied
field keeps its prior value; and when no entry carries the id the whole
collection is returned unchanged. -/
theorem update_entry_spec (freshId now i : String) (hi : i ≠ "")
    (data : PartialDiaryEntry) (hd : data.id = some i)
    (prev : List DiaryEntry) :
    (handleSaveEntry freshId now data prev).length = prev.length ∧
    (∀ k : Nat, (handleSaveEntry freshId now data prev)[k]? =
        (prev[k]?).map (fun e => if e.id = i then mergeEntry e data else e)) ∧
    (∀ e : DiaryEntry,
        (data.content = none → (mergeEntry e data).content = e.content) ∧
        (data.date = none → (mergeEntry e data).date = e.date) ∧
        (data.images = none → (mergeEntry e data).images = e.images) ∧
        (data.mood = none → (mergeEntry e data).mood = e.mood) ∧
        (data.tags = none → (mergeEntry e data).tags = e.tags) ∧
        (data.aiReflection = none →
          (mergeEntry e data).aiReflection = e.aiReflection) ∧
        (data.aiImage = none → (mergeEntry e data).aiImage = e.aiImage)) ∧
    ((∀ e ∈ prev, e.id ≠ i) → handleSaveEntry freshId now data prev = prev) := by
  have hsave : handleSaveEntry freshId now data prev =
      prev.map (fun e => if e.id = i then mergeEntry e data else e) := by
    unfold handleSaveEntry
    rw [hd]
    simp [hi]
  refine ⟨by rw [hsave]; simp, ?_, ?_, ?_⟩
  · intro k
    rw [hsave]
    exact List.getElem?_map _ prev k
  · intro e
    refine ⟨?_, ?_, ?_, ?_, ?_, ?_, ?_⟩ <;>
      (intro h; simp [mergeEntry, h])
  · intro hnone
    rw [hsave]
    apply list_map_id_of
    intro e he
    rw [if_neg (hnone e he)]

theorem mem_orderedInsertEntry (a x : DiaryEntry) (l : List DiaryEntry) :
    x ∈ orderedInsertEntry a l ↔ x = a ∨ x ∈ l := by
  induction l with
  | nil => simp [orderedInsertEntry]
  | cons b t ih =>
      unfold orderedInsertEntry
      by_cases h : dateLe a b = true
      · simp only [h, if_true, List.mem_cons]
      · simp only [h, if_false, Bool.false_eq_true, List.mem_cons, ih]
        tauto

theorem mem_sortEntries (x : DiaryEntry) (l : List DiaryEntry) :
    x ∈ sortEntries l ↔ x ∈ l := by
  induction l with
  | nil => simp [sortEntries]
  | cons a t ih =>
      simp only [sortEntries, mem_orderedInsertEntry, ih, List.mem_cons]

theorem dateLe_total (a b : DiaryEntry) : dateLe a b = true ∨ dateLe b a = true := by
  rcases h1 : parseDateMs a.date with _ | x <;>
    rcases h2 : parseDateMs b.date with _ | y <;>
      simp [dateLe, h1, h2]
  exact Int.le_total y x

theorem dateLe_trans_of {a b c : DiaryEntry}
    (ha : (parseDateMs a.date).isSome) (hb : (parseDateMs b.date).isSome)
    (hc : (parseDateMs c.date).isSome)
    (h1 : dateLe a b = true) (h2 : dateLe b c = true) : dateLe a c = true := by
  rcases Option.isSome_iff_exists.mp ha with ⟨x, hx⟩
  rcases Option.isSome_iff_exists.mp hb with ⟨y, hy⟩
  rcases Option.isSome_iff_exists.mp hc with ⟨z, hz⟩
  simp only [dateLe, hx, hy, hz, decide_eq_true_eq] at h1 h2 ⊢
  exact le_trans h2 h1

theorem pairwise_orderedInsertEntry (a : DiaryEntry) (l : List DiaryEntry)
    (ha : (parseDateMs a.date).isSome)
    (hl : ∀ x ∈ l, (parseDateMs x.date).isSome)
    (h : l.Pairwise (fun u v => dateLe u v = true)) :
    (orderedInsertEntry a l).Pairwise (fun u v => dateLe u v = true) := by
  induction l with
  | nil => simp [orderedInsertEntry]
  | cons b t ih =>
      unfold orderedInsertEntry
      rcases List.pairwise_cons.mp h with ⟨hbt, hpt⟩
      by_cases hab : dateLe a b = true
      · rw [if_pos hab]
        refine List.pairwise_cons.mpr ⟨?_, h⟩
        intro x hx
        rcases List.mem_cons.mp hx with rfl | hxt
        · exact hab
        · exact dateLe_trans_of ha (hl b (by simp)) (hl x (by simp [hxt]))
            hab (hbt x hxt)
      · rw [if_neg hab]
        refine List.pairwise_cons.mpr
          ⟨?_, ih (fun x hx => hl x (by simp [hx])) hpt⟩
        intro x hx
        rcases (mem_orderedInsertEntry a x t).mp hx with hxa | hxt
        · have hba : dateLe b a = true := by
            rcases dateLe_total a b with hcon | hba
            · exact absurd hcon hab
            · exact hba
          show dateLe b x = true
          rw [hxa]
          exact hba
        · exact hbt x hxt

theorem pairwise_sortEntries (l : List DiaryEntry)
    (hl : ∀ x ∈ l, (parseDateMs x.date).isSome) :
    (sortEntries l).Pairwise (fun u v => dateLe u v = true) := by
  induction l with
  | nil => simp [sortEntries]
  | cons a t ih =>
      refine pairwise_orderedInsertEntry a (sortEntries t) (hl a (by simp)) ?_ ?_
      · intro x hx
        exact hl x (by simp [(mem_sortEntries x t).mp hx])
      · exact ih (fun x hx => hl x (by simp [hx]))

/-- C6: the timeline view keeps exactly the entries whose content contains
the query case-insensitively or whose date string contains it literally,
sorted descending by parsed date (pairwise, for entries whose dates parse),
and on the two concrete entries: query alpha keeps only the first, query
2024-02 keeps only the second, and the empty query keeps both with the
February entry first. -/
theorem filtered_entries_spec :
    (∀ (entries : List DiaryEntry) (q : String) (e : DiaryEntry),
        e ∈ filteredEntries entries q ↔ e ∈ entries ∧ matchesQuery q e = true) ∧
    (∀ (entries : List DiaryEntry) (q : String),
        (∀ x ∈ entries, (parseDateMs x.date).isSome) →
        (filteredEntries entries q).Pairwise (fun a b => dateLe a b = true)) ∧
    filteredEntries [eAlpha, eBeta] "alpha" = [eAlpha] ∧
    filteredEntries [eAlpha, eBeta] "2024-02" = [eBeta] ∧
    filteredEntries [eAlpha, eBeta] "" = [eBeta, eAlpha] := by
  refine ⟨?_, ?_, by decide, by decide, by decide⟩
  · intro entries q e
    unfold filteredEntries
    rw [mem_sortEntries]
    simp [List.mem_filter]
  · intro entries q h
    unfold filteredEntries
    apply pairwise_sortEntries
    intro x hx
    exact h x (List.mem_of_mem_filter hx)

theorem filtered_entries_spec_witness :
    (∀ x ∈ [eAlpha, eBeta], (parseDateMs x.date).isSome) ∧
    (filteredEntries [eAlpha, eBeta] "").Pairwise
      (fun a b => dateLe a b = true) :=
  ⟨by decide, filtered_entries_spec.2.1 [eAlpha, eBeta] "" (by decide)⟩

/-- C7: for positive input dimensions and a positive cap, the computed
dimensions preserve the aspect ratio exactly (stated multiplicatively),
neither exceeds the cap, and inputs already within the cap are returned
unchanged. -/
theorem optimize_image_dims_spec (cap w h : ℚ)
    (hcap : 0 < cap) (hw : 0 < w) (hh : 0 < h) :
    (scaleDims cap w h).1 * h = w * (scaleDims cap w h).2 ∧
    (scaleDims cap w h).1 ≤ cap ∧
    (scaleDims cap w h).2 ≤ cap ∧
    (w ≤ cap → h ≤ cap → scaleDims cap w h = (w, h)) := by
  by_cases hwh : h < w
  · by_cases hcw : cap < w
    · have hp : scaleDims cap w h = (cap, h * (cap / w)) := by
        unfold scaleDims
        rw [if_pos hwh, if_pos hcw]
      rw [hp]
      refine ⟨?_, le_refl cap, ?_, ?_⟩
      · show cap * h = w * (h * (cap / w))
        field_simp
        ring
      · show h * (cap / w) ≤ cap
        rw [← mul_div_assoc, div_le_iff₀ hw]
        nlinarith
      · intro hwc _
        exact absurd hcw (not_lt.mpr hwc)
    · have hp : scaleDims cap w h = (w, h) := by
        unfold scaleDims
        rw [if_pos hwh, if_neg hcw]
      rw [hp]
      exact ⟨rfl, not_lt.mp hcw, le_trans (le_of_lt hwh) (not_lt.mp hcw),
        fun _ _ => rfl⟩
  · by_cases hch : cap < h
    · have hp : scaleDims cap w h = (w * (cap / h), cap) := by
        unfold scaleDims
        rw [if_neg hwh, if_pos hch]
      rw [hp]
      refine ⟨?_, ?_, le_refl cap, ?_⟩
      · show w * (cap / h) * h = w * cap
        field_simp
      · show w * (cap / h) ≤ cap
        rw [← mul_div_assoc, div_le_iff₀ hh]
        nlinarith [not_lt.mp hwh]
      · intro _ hhc
        exact absurd hch (not_lt.mpr hhc)
    · have hp : scaleDims cap w h = (w, h) := by
        unfold scaleDims
        rw [if_neg hwh, if_neg hch]
      rw [hp]
      exact ⟨rfl, le_trans (not_lt.mp hwh) (not_lt.mp hch),
        not_lt.mp hch, fun _ _ => rfl⟩

theorem optimize_image_dims_spec_witness :
    (0 : ℚ) < 1000 ∧ (0 : ℚ) < 2000 ∧ (0 : ℚ) < 500 ∧
    ((scaleDims 1000 2000 500).1 * 500 = 2000 * (scaleDims 1000 2000 500).2 ∧
     (scaleDims 1000 2000 500).1 ≤ 1000 ∧
     (scaleDims 1000 2000 500).2 ≤ 1000 ∧
     ((2000 : ℚ) ≤ 1000 → (500 : ℚ) ≤ 1000 →
        scaleDims 1000 2000 500 = (2000, 500))) :=
  ⟨by norm_num, by norm_num, by norm_num,
   optimize_image_dims_spec 1000 2000 500 (by norm_num) (by norm_num) (by norm_num)⟩

theorem optimizeAll_ok_of_all (l : List ImgFile)
    (h : ∀ f ∈ l, f.decodable = true) :
    optimizeAll l = .ok (l.map encodeImage) := by
  induction l with
  | nil => rfl
  | cons f t ih =>
      have hf : f.decodable = true := h f (by simp)
      have ht := ih (fun g hg => h g (by simp [hg]))
      simp [optimizeAll, optimizeImageResult, hf, ht]

theorem optimizeAll_error_of_mem (l : List ImgFile)
    (h : ∃ f ∈ l, f.decodable = false) :
    ∃ e, optimizeAll l = .error e := by
  induction l with
  | nil => simp at h
  | cons f t ih =>
      rcases h with ⟨g, hg, hgd⟩
      rcases List.mem_cons.mp hg with rfl | hgt
      · refine ⟨"decode failure", ?_⟩
        simp [optimizeAll, optimizeImageResult, hgd]
      · by_cases hf : f.decodable = true
        · rcases ih ⟨g, hgt, hgd⟩ with ⟨e, he⟩
          exact ⟨e, by simp [optimizeAll, optimizeImageResult, hf, he]⟩
        · refine ⟨"decode failure", ?_⟩
          simp only [Bool.not_eq_true] at hf
          simp [optimizeAll, optimizeImageResult, hf]

/-- C8: the upload batch silently drops non-image files before processing
(the result only depends on the image-typed files), aborts all-or-nothing
when any remaining file fails to decode (images unchanged, one warning),
and on success appends the encoded payloads in original submission order. -/
theorem process_files_spec (files : List ImgFile) (images : List String) :
    processFiles files images = processFiles (files.filter isImageFile) images ∧
    ((∃ f ∈ files.filter isImageFile, f.decodable = false) →
      processFiles files images = (images, true)) ∧
    ((∀ f ∈ files.filter isImageFile, f.decodable = true) →
      processFiles files images =
        (images ++ (files.filter isImageFile).map encodeImage, false)) := by
  have hff : (files.filter isImageFile).filter isImageFile =
      files.filter isImageFile :=
    List.filter_eq_self.mpr (fun a ha => List.of_mem_filter ha)
  refine ⟨by rw [processFiles, processFiles, hff], ?_, ?_⟩
  · intro hex
    rcases optimizeAll_error_of_mem _ hex with ⟨e, he⟩
    simp [processFiles, he]
  · intro hall
    simp [processFiles, optimizeAll_ok_of_all _ hall]

theorem process_files_spec_witness :
    (∀ f ∈ [ImgFile.mk "image/png" "p1" true, ImgFile.mk "text/plain" "t" true,
             ImgFile.mk "image/jpeg" "p2" true].filter isImageFile,
        f.decodable = true) ∧
    processFiles
        [ImgFile.mk "image/png" "p1" true, ImgFile.mk "text/plain" "t" true,
         ImgFile.mk "image/jpeg" "p2" true] ["old"] =
      (["old"] ++
        ([ImgFile.mk "image/png" "p1" true, ImgFile.mk "text/plain" "t" true,
          ImgFile.mk "image/jpeg" "p2" true].filter isImageFile).map encodeImage,
       false) :=
  ⟨by decide,
   (process_files_spec
      [ImgFile.mk "image/png" "p1" true, ImgFile.mk "text/plain" "t" true,
       ImgFile.mk "image/jpeg" "p2" true] ["old"]).2.2 (by decide)⟩

/-- C9: with a missing or empty credential, every Reflection Gateway
operation in both getAI-based revisions returns its designated fallback and
attempts zero outbound calls — the missing key is detected before any call
(the call counter stays zero and the result is independent of the
transport). -/
theorem gateway_missing_key_spec (apiKey : Option String)
    (hmiss : apiKey = none ∨ apiKey = some "") (svc : GenService)
    (content date : String) (entries : List String) :
    generateEntryReflectionV2 apiKey svc content date =
      ("Your memory is safely stored. AI reflection is currently unavailable.", 0) ∧
    generateReflectionImageV2 apiKey svc content = (none, 0) ∧
    generateYearSummaryV2 apiKey svc entries =
      ("Your journey is a collection of beautiful threads.", 0) ∧
    generateEntryReflectionV3 apiKey svc content date =
      ("The AI is currently quiet, but your memory is safely stored.", 0) ∧
    generateReflectionImageV3 apiKey svc content = (none, 0) ∧
    generateYearSummaryV3 apiKey svc entries =
      ("Could not generate summary at this time.", 0) := by
  rcases hmiss with rfl | rfl <;>
    exact ⟨rfl, rfl, rfl, rfl, rfl, rfl⟩

theorem gateway_missing_key_spec_witness :
    ((none : Option String) = none ∨ (none : Option String) = some "") ∧
    (generateEntryReflectionV2 none svcW "today was calm" "2024-04-04" =
      ("Your memory is safely stored. AI reflection is currently unavailable.", 0) ∧
     generateReflectionImageV2 none svcW "today was calm" = (none, 0) ∧
     generateYearSummaryV2 none svcW [] =
      ("Your journey is a collection of beautiful threads.", 0) ∧
     generateEntryReflectionV3 none svcW "today was calm" "2024-04-04" =
      ("The AI is currently quiet, but your memory is safely stored.", 0) ∧
     generateReflectionImageV3 none svcW "today was calm" = (none, 0) ∧
     generateYearSummaryV3 none svcW [] =
      ("Could not generate summary at this time.", 0)) :=
  ⟨Or.inl rfl,
   gateway_missing_key_spec none (Or.inl rfl) svcW "today was calm" "2024-04-04" []⟩

/-- C10 counterexample: the guard tests JavaScript truthiness, not
presence, of the in-flight id.  In the state where an enrichment for an
entry whose id is the empty string is in flight (reachable because entries
load from storage unvalidated), the in-flight id is set, yet triggering
enrichment issues another request pair. -/
theorem handle_reflect_truthy_gap :
    (AppState.mk [emptyIdEntry] (some "")).isReflectingId = some "" ∧
    (handleReflectStart (AppState.mk [emptyIdEntry] (some "")) "").2 = 1 :=
  ⟨rfl, by decide⟩

/-- C10 amended: whenever the in-flight enrichment id is set to a non-empty
string — which covers every id the app itself generates, since
crypto.randomUUID never yields the empty string — triggering enrichment on
any id (the same entry or any other) issues no request pair and leaves the
state unchanged, so at most one enrichment is in flight at a time. -/
theorem handle_reflect_single_flight (s : AppState) (a : String)
    (hset : s.isReflectingId = some a) (hne : a ≠ "") (id : String) :
    handleReflectStart s id = (s, 0) := by
  have ht : jsTruthyStr s.isReflectingId = true := by
    rw [hset]
    simpa [jsTruthyStr] using hne
  unfold handleReflectStart
  cases s.entries.find? (fun e => e.id == id) with
  | none => rfl
  | some _ => simp [ht]

theorem handle_reflect_single_flight_witness :
    inflightState.isReflectingId = some "e1" ∧ ("e1" : String) ≠ "" ∧
    handleReflectStart inflightState "e1" = (inflightState, 0) ∧
    handleReflectStart inflightState "e2" = (inflightState, 0) :=
  ⟨rfl, by decide,
   handle_reflect_single_flight inflightState "e1" rfl (by decide) "e1",
   handle_reflect_single_flight inflightState "e1" rfl (by decide) "e2"⟩

/-- C4 counterexample: in the first-revision persistence effect, a mutation
that leaves the collection empty performs no write at all — with a stale
serialized snapshot in the slot and a storage that accepts every write, the
slot keeps the stale value, which differs from the serialization of the
empty collection. -/
theorem persist_v1_empty_skip :
    (persistEffectV1 (fun _ => true) [] (some "[\x22stale\x22]")).1 =
      some "[\x22stale\x22]" ∧
    stringifyEntries ([] : List DiaryEntry) = "[]" ∧
    (some "[\x22stale\x22]" : Option String) ≠
      some (stringifyEntries ([] : List DiaryEntry)) :=
  ⟨rfl, by decide, by decide⟩

/-- C4 amended: the second-revision persistence effect writes the JSON
serialization of the whole in-memory collection on every accepted write,
the empty collection included; the first revision does so only when the
collection is non-empty, skipping the write entirely otherwise; and in
both revisions a rejected write (quota) keeps the old slot and raises the
dismissible warning instead of throwing. -/
theorem persist_snapshot_spec (canWrite : String → Bool)
    (entries : List DiaryEntry) (slot : Option String) :
    (canWrite (stringifyEntries entries) = true →
      persistEffectV2 canWrite entries slot =
        (some (stringifyEntries entries), false)) ∧
    (entries ≠ [] → canWrite (stringifyEntries entries) = true →
      persistEffectV1 canWrite entries slot =
        (some (stringifyEntries entries), false)) ∧
    (canWrite (stringifyEntries entries) = false →
      persistEffectV2 canWrite entries slot = (slot, true)) := by
  refine ⟨?_, ?_, ?_⟩
  · intro hw
    simp [persistEffectV2, hw]
  · intro hne hw
    have hlen : entries.length ≠ 0 := by
      simpa [List.length_eq_zero] using hne
    simp [persistEffectV1, hlen, hw]
  · intro hw
    simp [persistEffectV2, hw]

theorem persist_snapshot_spec_witness :
    ((fun _ : String => true) (stringifyEntries [eAlpha]) = true ∧
      persistEffectV2 (fun _ => true) [eAlpha] none =
        (some (stringifyEntries [eAlpha]), false)) ∧
    ([eAlpha] ≠ ([] : List DiaryEntry) ∧
      persistEffectV1 (fun _ => true) [eAlpha] none =
        (some (stringifyEntries [eAlpha]), false)) :=
  ⟨⟨rfl, (persist_snapshot_spec (fun _ => true) [eAlpha] none).1 rfl⟩,
   ⟨by decide, (persist_snapshot_spec (fun _ => true) [eAlpha] none).2.1
      (by decide) rfl⟩⟩

/-- C5: the load path is a total function (the try/catch confines every
JSON.parse failure) and yields the empty collection in both revisions
whenever the slot is absent or its content does not parse as a JSON
array — covering unparseable content and parseable non-array values. -/
theorem load_degrades_to_empty (slot : Option String)
    (h : ∀ s, slot = some s → ∀ l, jsonParse s ≠ some (Json.arr l)) :
    (loadEntriesV1 slot).1 = [] ∧ loadEntriesV2 slot = [] := by
  cases slot with
  | none => exact ⟨rfl, rfl⟩
  | some s =>
      by_cases hs : s = ""
      · constructor
        · simp [loadEntriesV1, hs]
        · simp [loadEntriesV2, hs]
      · have hp := h s rfl
        constructor
        · unfold loadEntriesV1
          rcases hj : jsonParse s with _ | v
          · simp [hs, hj]
          · cases v with
            | arr l => exact absurd hj (hp l)
            | null => simp [hs, hj]
            | bool b => simp [hs, hj]
            | num n => simp [hs, hj]
            | str t => simp [hs, hj]
            | obj fs => simp [hs, hj]
        · unfold loadEntriesV2
          rcases hj : jsonParse s with _ | v
          · simp [hs, hj]
          · cases v with
            | arr l => exact absurd hj (hp l)
            | null => simp [hs, hj]
            | bool b => simp [hs, hj]
            | num n => simp [hs, hj]
            | str t => simp [hs, hj]
            | obj fs => simp [hs, hj]

theorem load_degrades_to_empty_witness :
    (∀ s, (some "lifeThreads corrupted=:" : Option String) = some s →
        ∀ l, jsonParse s ≠ some (Json.arr l)) ∧
    (loadEntriesV1 (some "lifeThreads corrupted=:")).1 = [] ∧
    loadEntriesV2 (some "lifeThreads corrupted=:") = [] := by
  have hnp : jsonParse "lifeThreads corrupted=:" = none := rfl
  have hh : ∀ s, (some "lifeThreads corrupted=:" : Option String) = some s →
      ∀ l, jsonParse s ≠ some (Json.arr l) := by
    intro s hs l
    cases Option.some.inj hs
    rw [hnp]
    exact fun hcon => Option.noConfusion hcon
  exact ⟨hh, load_degrades_to_empty (some "lifeThreads corrupted=:") hh⟩

theorem update_entry_spec_witness :
    ("a" : String) ≠ "" ∧ dU.id = some "a" ∧
    (handleSaveEntry "f" "now" dU [eU]).length = ([eU] : List DiaryEntry).length ∧
    (mergeEntry eU dU).date = eU.date ∧
    (mergeEntry eU dU).images = eU.images :=
  ⟨by decide, rfl,
   (update_entry_spec "f" "now" "a" (by decide) dU rfl [eU]).1,
   ((update_entry_spec "f" "now" "a" (by decide) dU rfl [eU]).2.2.1 eU).2.1 rfl,
   ((update_entry_spec "f" "now" "a" (by decide) dU rfl [eU]).2.2.1 eU).2.2.1 rfl⟩
